import Mathlib

/-!
Verification of the GoHighLevel CRM client (src/api/lib/ghl-api.js).

The JavaScript module is shallowly embedded: JSON values become the `Json`
inductive, JavaScript strings stay `String` (with helper functions that mirror
the JavaScript string methods by recursion over the character list), thrown
errors become `JsError`, and the network is a scripted list of `HttpResponse`
values consumed in order by a state monad `M` that also records every request
issued.  Each function of the module is translated clause by clause from the
source.
-/

/-- JSON values, as produced by JSON.parse and consumed by the client. -/
inductive Json where
  | null
  | bool (b : Bool)
  | num (n : Int)
  | str (s : String)
  | arr (elems : List Json)
  | obj (fields : List (String × Json))
deriving Repr

mutual

/-- Structural equality on JSON values. -/
def Json.beq : Json → Json → Bool
  | .null, .null => true
  | .bool a, .bool b => a == b
  | .num a, .num b => a == b
  | .str a, .str b => a == b
  | .arr xs, .arr ys => Json.beqList xs ys
  | .obj fs, .obj gs => Json.beqFields fs gs
  | _, _ => false

/-- Structural equality on lists of JSON values. -/
def Json.beqList : List Json → List Json → Bool
  | [], [] => true
  | x :: xs, y :: ys => Json.beq x y && Json.beqList xs ys
  | _, _ => false

/-- Structural equality on JSON object field lists. -/
def Json.beqFields : List (String × Json) → List (String × Json) → Bool
  | [], [] => true
  | (k, v) :: fs, (l, w) :: gs => k == l && Json.beq v w && Json.beqFields fs gs
  | _, _ => false

end

mutual

theorem Json.eq_of_beq : ∀ (a b : Json), Json.beq a b = true → a = b
  | .null, .null, _ => rfl
  | .null, .bool _, h => nomatch h
  | .null, .num _, h => nomatch h
  | .null, .str _, h => nomatch h
  | .null, .arr _, h => nomatch h
  | .null, .obj _, h => nomatch h
  | .bool _, .null, h => nomatch h
  | .bool a, .bool b, h => by
      have h2 : (a == b) = true := h
      exact congrArg Json.bool (beq_iff_eq.mp h2)
  | .bool _, .num _, h => nomatch h
  | .bool _, .str _, h => nomatch h
  | .bool _, .arr _, h => nomatch h
  | .bool _, .obj _, h => nomatch h
  | .num _, .null, h => nomatch h
  | .num _, .bool _, h => nomatch h
  | .num a, .num b, h => by
      have h2 : (a == b) = true := h
      exact congrArg Json.num (beq_iff_eq.mp h2)
  | .num _, .str _, h => nomatch h
  | .num _, .arr _, h => nomatch h
  | .num _, .obj _, h => nomatch h
  | .str _, .null, h => nomatch h
  | .str _, .bool _, h => nomatch h
  | .str _, .num _, h => nomatch h
  | .str a, .str b, h => by
      have h2 : (a == b) = true := h
      exact congrArg Json.str (beq_iff_eq.mp h2)
  | .str _, .arr _, h => nomatch h
  | .str _, .obj _, h => nomatch h
  | .arr _, .null, h => nomatch h
  | .arr _, .bool _, h => nomatch h
  | .arr _, .num _, h => nomatch h
  | .arr _, .str _, h => nomatch h
  | .arr xs, .arr ys, h => congrArg Json.arr (Json.eqList_of_beq xs ys h)
  | .arr _, .obj _, h => nomatch h
  | .obj _, .null, h => nomatch h
  | .obj _, .bool _, h => nomatch h
  | .obj _, .num _, h => nomatch h
  | .obj _, .str _, h => nomatch h
  | .obj _, .arr _, h => nomatch h
  | .obj fs, .obj gs, h => congrArg Json.obj (Json.eqFields_of_beq fs gs h)

theorem Json.eqList_of_beq : ∀ (xs ys : List Json), Json.beqList xs ys = true → xs = ys
  | [], [], _ => rfl
  | [], _ :: _, h => nomatch h
  | _ :: _, [], h => nomatch h
  | x :: xs, y :: ys, h => by
      have h2 : (Json.beq x y && Json.beqList xs ys) = true := h
      have hb := Bool.and_elim_left h2
      have hl := Bool.and_elim_right h2
      rw [Json.eq_of_beq x y hb, Json.eqList_of_beq xs ys hl]

theorem Json.eqFields_of_beq :
    ∀ (fs gs : List (String × Json)), Json.beqFields fs gs = true → fs = gs
  | [], [], _ => rfl
  | [], _ :: _, h => nomatch h
  | _ :: _, [], h => nomatch h
  | (k, v) :: fs, (l, w) :: gs, h => by
      have h2 : ((k == l && Json.beq v w) && Json.beqFields fs gs) = true := h
      have hk := Bool.and_elim_left (Bool.and_elim_left h2)
      have hv := Bool.and_elim_right (Bool.and_elim_left h2)
      have ht := Bool.and_elim_right h2
      rw [beq_iff_eq.mp hk, Json.eq_of_beq v w hv, Json.eqFields_of_beq fs gs ht]

end

mutual

theorem Json.beq_refl : ∀ (a : Json), Json.beq a a = true
  | .null => rfl
  | .bool a => by
      have h : (a == a) = true := beq_self_eq_true a
      exact h
  | .num a => by
      have h : (a == a) = true := beq_self_eq_true a
      exact h
  | .str a => by
      have h : (a == a) = true := beq_self_eq_true a
      exact h
  | .arr xs => Json.beqList_refl xs
  | .obj fs => Json.beqFields_refl fs

theorem Json.beqList_refl : ∀ (xs : List Json), Json.beqList xs xs = true
  | [] => rfl
  | x :: xs => by
      have hb := Json.beq_refl x
      have hl := Json.beqList_refl xs
      show (Json.beq x x && Json.beqList xs xs) = true
      rw [hb, hl]
      rfl

theorem Json.beqFields_refl : ∀ (fs : List (String × Json)), Json.beqFields fs fs = true
  | [] => rfl
  | (k, v) :: fs => by
      have hb := Json.beq_refl v
      have hl := Json.beqFields_refl fs
      show ((k == k && Json.beq v v) && Json.beqFields fs fs) = true
      rw [beq_self_eq_true k, hb, hl]
      rfl

end

instance : DecidableEq Json := fun a b =>
  decidable_of_iff (Json.beq a b = true)
    ⟨Json.eq_of_beq a b, fun h => h ▸ Json.beq_refl a⟩

/-- Property read on a JSON value, as JavaScript property access on an object;
access on a non-object yields undefined (`none`), as does a missing key. -/
def Json.getField : Json → String → Option Json
  | .obj fs, k => fs.lookup k
  | _, _ => none

/-- JavaScript truthiness of a JSON value. -/
def Json.truthy : Json → Bool
  | .null => false
  | .bool b => b
  | .num n => !(n == 0)
  | .str s => !(s == "")
  | .arr _ => true
  | .obj _ => true

/-- Truthiness of a possibly-undefined value (undefined is falsy). -/
def truthyOpt (o : Option Json) : Bool :=
  match o with
  | some v => v.truthy
  | none => false

/-- Decimal rendering of an integer, mirroring JavaScript number-to-string
for the integral values the client handles. -/
def intToStr (n : Int) : String :=
  if n < 0 then "-" ++ Nat.repr n.natAbs else Nat.repr n.natAbs

mutual

/-- JavaScript string coercion (template-literal interpolation and the
String() function) of a JSON value. -/
def Json.toJsString : Json → String
  | .null => "null"
  | .bool b => if b then "true" else "false"
  | .num n => intToStr n
  | .str s => s
  | .arr xs => Json.toJsStringList xs
  | .obj _ => "[object Object]"

/-- Array-to-string join with commas; null elements render as the empty
string, as in JavaScript Array.prototype.toString. -/
def Json.toJsStringList : List Json → String
  | [] => ""
  | [.null] => ""
  | [x] => Json.toJsString x
  | .null :: xs => "," ++ Json.toJsStringList xs
  | x :: xs => Json.toJsString x ++ "," ++ Json.toJsStringList xs

end

/-- JavaScript whitespace characters relevant to String.prototype.trim. -/
def isWsChar (c : Char) : Bool :=
  c == ' ' || c == '\t' || c == '\n' || c == '\r'

/-- String.prototype.trim, by recursion over the character list. -/
def jsTrim (s : String) : String :=
  String.mk (((s.data.dropWhile isWsChar).reverse.dropWhile isWsChar).reverse)

/-- Substring test helper over character lists. -/
def jsIncludesAux (t : List Char) : List Char → Bool
  | [] => t.isEmpty
  | c :: rest => t.isPrefixOf (c :: rest) || jsIncludesAux t rest

/-- String.prototype.includes. -/
def jsIncludes (s t : String) : Bool :=
  if t == "" then true else jsIncludesAux t.data s.data

/-- String.prototype.toLowerCase (ASCII case folding, as used on emails). -/
def jsToLower (s : String) : String :=
  String.mk (s.data.map Char.toLower)

/-- String.prototype.startsWith. -/
def jsStartsWith (s t : String) : Bool :=
  t.data.isPrefixOf s.data

/-- String.prototype.substring from a character index to the end. -/
def jsDropChars (s : String) (n : Nat) : String :=
  String.mk (s.data.drop n)

/-- String.prototype.substring of the first n characters. -/
def jsTakeChars (s : String) (n : Nat) : String :=
  String.mk (s.data.take n)

/-- Hexadecimal digit character for a value below 16. -/
def hexChar (n : Nat) : Char :=
  if n < 10 then Char.ofNat (48 + n) else Char.ofNat (55 + n)

/-- UTF-8 byte sequence of a character, as Nat values. -/
def utf8Bytes (c : Char) : List Nat :=
  let n := c.toNat
  if n < 128 then [n]
  else if n < 2048 then [192 + n / 64, 128 + n % 64]
  else if n < 65536 then [224 + n / 4096, 128 + (n / 64) % 64, 128 + n % 64]
  else [240 + n / 262144, 128 + (n / 4096) % 64, 128 + (n / 64) % 64, 128 + n % 64]

/-- Characters left unescaped by encodeURIComponent. -/
def uriUnreserved (c : Char) : Bool :=
  c.isAlphanum || c == '-' || c == '_' || c == '.' || c == '!' || c == '~' ||
    c == '*' || c == Char.ofNat 39 || c == '(' || c == ')'

/-- Percent-encoding of a single character via its UTF-8 bytes. -/
def percentEncodeChar (c : Char) : String :=
  String.join ((utf8Bytes c).map (fun b =>
    String.mk ['%', hexChar (b / 16), hexChar (b % 16)]))

/-- The encodeURIComponent function. -/
def encodeURIComponent (s : String) : String :=
  String.join (s.data.map (fun c =>
    if uriUnreserved c then String.mk [c] else percentEncodeChar c))

/-- A thrown JavaScript Error, with the optional code and status fields the
client attaches. -/
structure JsError where
  message : String
  code : Option String
  status : Option Nat
deriving Repr, DecidableEq

/-- Environment configuration: GHL_API_KEY and GHL_LOCATION_ID.  An unset
variable is `none`. -/
structure Config where
  apiKey : Option String
  locationId : Option String
deriving Repr, DecidableEq

/-- Truthiness of an environment variable (unset or empty is falsy). -/
def envTruthy (o : Option String) : Bool :=
  match o with
  | some s => !(s == "")
  | none => false

/-- Interpolation of an environment variable into a template literal
(an unset variable renders as the string undefined). -/
def envStr (o : Option String) : String :=
  match o with
  | some s => s
  | none => "undefined"

/-- The options object passed to the request helpers: optional method,
extra headers, and an optional JSON body (the JSON.stringify argument). -/
structure RequestOptions where
  method : Option String
  headers : List (String × String)
  body : Option Json
deriving Repr, DecidableEq

/-- Empty options object. -/
def noOptions : RequestOptions := ⟨none, [], none⟩

/-- One outgoing HTTP request, as observed by the scripted network. -/
structure Request where
  base : String
  endpoint : String
  method : String
  headers : List (String × String)
  body : Option Json
deriving Repr, DecidableEq

/-- One scripted HTTP response.  `bodyJson` models the result of JSON.parse
on `body` (`none` when parsing would fail). -/
structure HttpResponse where
  status : Nat
  statusText : String
  contentType : String
  body : String
  bodyJson : Option Json
deriving Repr, DecidableEq

/-- The response.ok flag of fetch: status in the 2xx range. -/
def HttpResponse.isOk (r : HttpResponse) : Bool :=
  200 ≤ r.status && r.status ≤ 299

/-- Network state: the scripted responses still to be served, and the log of
requests issued so far. -/
structure NetState where
  remaining : List HttpResponse
  calls : List Request
deriving Repr, DecidableEq

/-- The effect monad of the client: state passing over the scripted network
plus thrown JavaScript errors. -/
def M (α : Type) : Type := NetState → Except JsError α × NetState

/-- Return for `M`. -/
def M.pure {α : Type} (a : α) : M α := fun s => (Except.ok a, s)

/-- Sequencing for `M`; a thrown error skips the continuation but keeps the
state (side effects already performed remain visible). -/
def M.bind {α β : Type} (x : M α) (f : α → M β) : M β := fun s =>
  match x s with
  | (Except.ok a, s2) => f a s2
  | (Except.error e, s2) => (Except.error e, s2)

/-- The throw statement. -/
def throwM {α : Type} (e : JsError) : M α := fun s => (Except.error e, s)

/-- A try/catch block. -/
def catchM {α : Type} (x : M α) (h : JsError → M α) : M α := fun s =>
  match x s with
  | (Except.ok a, s2) => (Except.ok a, s2)
  | (Except.error e, s2) => h e s2

/-- Lift a pure fallible computation into `M`. -/
def liftE {α : Type} (x : Except JsError α) : M α := fun s => (x, s)

/-- The fetch call: records the request and consumes the next scripted
response; an exhausted script is a network failure. -/
def fetch (req : Request) : M HttpResponse := fun s =>
  match s.remaining with
  | [] => (Except.error ⟨"fetch failed: network unavailable", none, none⟩,
           ⟨[], s.calls ++ [req]⟩)
  | r :: rest => (Except.ok r, ⟨rest, s.calls ++ [req]⟩)

/-- Run a computation against a scripted list of responses, starting from an
empty request log. -/
def runM {α : Type} (x : M α) (rs : List HttpResponse) : Except JsError α × NetState :=
  x ⟨rs, []⟩

/-! ## The GoHighLevel client, translated from src/api/lib/ghl-api.js -/

/-- Base URL of the legacy REST API. -/
def GHL_API_BASE : String := "https://rest.gohighlevel.com/v1"

/-- Base URL of the services API. -/
def GHL_SERVICES_BASE : String := "https://services.leadconnectorhq.com"

/-- JavaScript object property assignment on an entry list: replace the value
of an existing key in place, else append the new entry. -/
def setEntry (m : List (String × String)) (k v : String) : List (String × String) :=
  if m.any (fun p => p.1 == k) then
    m.map (fun p => if p.1 == k then (k, v) else p)
  else m ++ [(k, v)]

/-- Spread-merge of header objects: the later object overrides the earlier. -/
def mergeEntries (base extra : List (String × String)) : List (String × String) :=
  extra.foldl (fun acc kv => setEntry acc kv.1 kv.2) base

/-- The default headers built by ghlRequest and ghlServicesRequest. -/
def defaultHeaders (apiKey : String) : List (String × String) :=
  [("Authorization", "Bearer " ++ apiKey),
   ("Content-Type", "application/json"),
   ("Version", "2021-07-28")]

/-- The request assembled by ghlRequest for the legacy REST base. -/
def mkRestRequest (cfg : Config) (endpoint : String) (opts : RequestOptions) : Request :=
  ⟨GHL_API_BASE, endpoint, opts.method.getD "GET",
   mergeEntries (defaultHeaders (envStr cfg.apiKey)) opts.headers, opts.body⟩

/-- The request assembled by ghlServicesRequest for the services base. -/
def mkServicesRequest (cfg : Config) (endpoint : String) (opts : RequestOptions) : Request :=
  ⟨GHL_SERVICES_BASE, endpoint, opts.method.getD "GET",
   mergeEntries (defaultHeaders (envStr cfg.apiKey)) opts.headers, opts.body⟩

/-- The error body decoded on a non-success status: JSON.parse of the text
when it parses, else an object wrapping the raw text as message. -/
def respErrorData (r : HttpResponse) : Json :=
  match r.bodyJson with
  | some j => j
  | none => Json.obj [("message", Json.str r.body)]

/-- The JavaScript expression v || fallback for a possibly-undefined field
value interpolated into a template literal. -/
def jsFieldOr (o : Option Json) (fallback : String) : String :=
  match o with
  | some v => if v.truthy then v.toJsString else fallback
  | none => fallback

/-- The expression errorData.msg || errorData.message || fallback. -/
def msgOrMessageOr (d : Json) (fallback : String) : String :=
  match d.getField "msg" with
  | some v => if v.truthy then v.toJsString else jsFieldOr (d.getField "message") fallback
  | none => jsFieldOr (d.getField "message") fallback

/-- The error thrown by ghlRequest when GHL_API_KEY is not configured. -/
def restMissingKeyError : JsError :=
  ⟨"GHL_API_KEY environment variable is not set. Please configure it in Vercel project settings → Environment Variables.",
   some "MISSING_API_KEY", none⟩

/-- The error thrown by ghlServicesRequest when GHL_API_KEY is not
configured; unlike ghlRequest it carries no code field. -/
def servicesMissingKeyError : JsError :=
  ⟨"GHL_API_KEY environment variable is not set. Please configure it in Vercel project settings → Environment Variables.",
   none, none⟩

/-- Response handling of ghlRequest after fetch: error decoding and typed
errors on a non-success status, content negotiation on success. -/
def handleRestResponse (r : HttpResponse) : Except JsError Json :=
  if !r.isOk then
    let errorData := respErrorData r
    if r.status == 401 then
      Except.error ⟨"GHL API Authentication Failed (401): " ++
        msgOrMessageOr errorData "Invalid API key" ++
        ". Please verify your GHL_API_KEY in Vercel environment variables.",
        some "AUTH_ERROR", some 401⟩
    else
      Except.error ⟨"GHL API Error: " ++ Nat.repr r.status ++ " - " ++
        msgOrMessageOr errorData r.statusText, none, none⟩
  else if jsTrim r.body == "" then
    Except.ok (Json.obj [("success", Json.bool true)])
  else if jsIncludes r.contentType "application/json" then
    match r.bodyJson with
    | some j => Except.ok j
    | none => Except.error ⟨"Invalid JSON response: " ++ jsTakeChars r.body 100, none, none⟩
  else
    Except.ok (Json.obj [("success", Json.bool true),
                         ("message", Json.str r.body),
                         ("raw", Json.str r.body)])

/-- Response handling of ghlServicesRequest after fetch; identical to the
REST variant except for the generic error message prefix. -/
def handleServicesResponse (r : HttpResponse) : Except JsError Json :=
  if !r.isOk then
    let errorData := respErrorData r
    if r.status == 401 then
      Except.error ⟨"GHL API Authentication Failed (401): " ++
        msgOrMessageOr errorData "Invalid API key" ++
        ". Please verify your GHL_API_KEY in Vercel environment variables.",
        some "AUTH_ERROR", some 401⟩
    else
      Except.error ⟨"GHL Services API Error: " ++ Nat.repr r.status ++ " - " ++
        msgOrMessageOr errorData r.statusText, none, none⟩
  else if jsTrim r.body == "" then
    Except.ok (Json.obj [("success", Json.bool true)])
  else if jsIncludes r.contentType "application/json" then
    match r.bodyJson with
    | some j => Except.ok j
    | none => Except.error ⟨"Invalid JSON response: " ++ jsTakeChars r.body 100, none, none⟩
  else
    Except.ok (Json.obj [("success", Json.bool true),
                         ("message", Json.str r.body),
                         ("raw", Json.str r.body)])

/-- The ghlRequest helper: fail without a network call when the key is not
configured, else fetch against the REST base and normalize the response. -/
def ghlRequest (cfg : Config) (endpoint : String) (opts : RequestOptions) : M Json :=
  if !(envTruthy cfg.apiKey) then
    throwM restMissingKeyError
  else
    M.bind (fetch (mkRestRequest cfg endpoint opts)) (fun r =>
      liftE (handleRestResponse r))

/-- The ghlServicesRequest helper: as ghlRequest but against the services
base, and its missing-key error carries no code. -/
def ghlServicesRequest (cfg : Config) (endpoint : String) (opts : RequestOptions) : M Json :=
  if !(envTruthy cfg.apiKey) then
    throwM servicesMissingKeyError
  else
    M.bind (fetch (mkServicesRequest cfg endpoint opts)) (fun r =>
      liftE (handleServicesResponse r))

/-- The search endpoint path built by searchContactByEmail. -/
def searchEndpoint (email : String) : String :=
  "/contacts/?query=" ++ encodeURIComponent email

/-- Shape dispatch of searchContactByEmail on the search response: a
contacts array, a single contact field, a bare array, else no contacts. -/
def extractContacts (data : Json) : List Json :=
  match data.getField "contacts" with
  | some (Json.arr xs) => xs
  | _ =>
    match data.getField "contact" with
    | some v =>
      if v.truthy then [v]
      else
        match data with
        | Json.arr xs => xs
        | _ => []
    | none =>
      match data with
      | Json.arr xs => xs
      | _ => []

/-- The filter predicate contact.email and lowercase equality.  A truthy
non-string email field raises a TypeError in JavaScript (toLowerCase is not
a function), modelled as a thrown error. -/
def emailMatchesE (email : String) (contact : Json) : Except JsError Bool :=
  match contact.getField "email" with
  | none => Except.ok false
  | some (Json.str s) => Except.ok (!(s == "") && jsToLower s == jsToLower email)
  | some v =>
    if v.truthy then
      Except.error ⟨"contact.email.toLowerCase is not a function", none, none⟩
    else Except.ok false

/-- Array.prototype.filter with a predicate that may throw; elements are
tested left to right and the first thrown error propagates. -/
def filterE {α : Type} (p : α → Except JsError Bool) : List α → Except JsError (List α)
  | [] => Except.ok []
  | x :: xs =>
    match p x with
    | Except.error e => Except.error e
    | Except.ok b =>
      match filterE p xs with
      | Except.error e => Except.error e
      | Except.ok rest => Except.ok (if b then x :: rest else rest)

/-- Boolean form of the exact-email filter, total on contacts whose email
field is a string or falsy; used to state what the filter keeps. -/
def emailMatchB (email : String) (contact : Json) : Bool :=
  match contact.getField "email" with
  | some (Json.str s) => !(s == "") && jsToLower s == jsToLower email
  | _ => false

/-- A contact whose email field is absent, a string, or falsy; on such
contacts the filter cannot throw. -/
def emailFieldSafe (contact : Json) : Bool :=
  match contact.getField "email" with
  | none => true
  | some (Json.str _) => true
  | some v => !v.truthy

/-- The searchContactByEmail function: query the search endpoint, extract a
contact list from whichever response shape arrived, keep only exact
case-insensitive email matches, and return the first match or null. -/
def searchContactByEmail (cfg : Config) (email : String) : M (Option Json) :=
  M.bind (ghlRequest cfg (searchEndpoint email) noOptions) (fun data =>
    M.bind (liftE (filterE (emailMatchesE email) (extractContacts data))) (fun exactMatches =>
      M.pure exactMatches.head?))

/-- The endpoint chosen by getCustomFieldDefinitions, scoped by the location
id when one is configured. -/
def customFieldsEndpoint (cfg : Config) : String :=
  if envTruthy cfg.locationId then
    "/custom-fields/?locationId=" ++ envStr cfg.locationId
  else "/custom-fields/"

/-- JavaScript object property assignment for the key-to-id field map. -/
def setJEntry (m : List (String × Json)) (k : String) (v : Json) : List (String × Json) :=
  if m.any (fun p => p.1 == k) then
    m.map (fun p => if p.1 == k then (k, v) else p)
  else m ++ [(k, v)]

/-- The forEach loop of getCustomFieldDefinitions: for each field with truthy
id and fieldKey, strip a leading contact. prefix from the key and record the
id.  A truthy non-string fieldKey raises a TypeError (startsWith is not a
function), modelled as a thrown error. -/
def buildFieldMap (fields : List Json) : Except JsError (List (String × Json))  :=
  fields.foldlM (fun acc field =>
    if truthyOpt (field.getField "id") && truthyOpt (field.getField "fieldKey") then
      match field.getField "fieldKey" with
      | some (Json.str fk) =>
        let normalizedKey := if jsStartsWith fk "contact." then jsDropChars fk 8 else fk
        Except.ok (setJEntry acc normalizedKey ((field.getField "id").getD Json.null))
      | _ => Except.error ⟨"field.fieldKey.startsWith is not a function", none, none⟩
    else Except.ok acc) []

/-- The getCustomFieldDefinitions function: fetch all definitions and build
the normalized key-to-id mapping (empty when the response carries no
customFields array). -/
def getCustomFieldDefinitions (cfg : Config) : M (List (String × Json)) :=
  M.bind (ghlRequest cfg (customFieldsEndpoint cfg) noOptions) (fun data =>
    match data.getField "customFields" with
    | some (Json.arr fields) => liftE (buildFieldMap fields)
    | _ => M.pure [])

/-- One optional payload entry of createContact: included exactly when the
field value is truthy, via the spread of a short-circuit conjunction. -/
def optEntry (d : Json) (k : String) : List (String × Json) :=
  match d.getField k with
  | some v => if v.truthy then [(k, v)] else []
  | none => []

/-- The payload object assembled by createContact.  The email property is
always written; when contactData.email is undefined, JSON.stringify drops
the property, modelled by omitting the entry. -/
def createPayload (contactData : Json) : Json :=
  Json.obj
    ((match contactData.getField "email" with
      | some v => [("email", v)]
      | none => []) ++
     optEntry contactData "firstName" ++
     optEntry contactData "lastName" ++
     optEntry contactData "name" ++
     optEntry contactData "phone")

/-- The expression data.contact || data used to unwrap response envelopes. -/
def jsOrVal (a : Option Json) (b : Json) : Json :=
  match a with
  | some v => if v.truthy then v else b
  | none => b

/-- The createContact function: POST the payload and unwrap the contact. -/
def createContact (cfg : Config) (contactData : Json) : M Json :=
  M.bind (ghlRequest cfg "/contacts/" ⟨some "POST", [], some (createPayload contactData)⟩)
    (fun data => M.pure (jsOrVal (data.getField "contact") data))

/-- Object spread of contactData over the email seed object built by
findOrCreateContact; spreading a non-object contributes no entries. -/
def spreadMerge (base : List (String × Json)) (d : Json) : List (String × Json) :=
  match d with
  | Json.obj fs => fs.foldl (fun acc kv => setJEntry acc kv.1 kv.2) base
  | _ => base

/-- The findOrCreateContact function: search first and reuse the match, else
create a contact from the email plus the supplied defaults. -/
def findOrCreateContact (cfg : Config) (email : String) (contactData : Json) : M Json :=
  M.bind (searchContactByEmail cfg email) (fun contact =>
    match contact with
    | none =>
      createContact cfg (Json.obj (spreadMerge [("email", Json.str email)] contactData))
    | some c => M.pure c)

/-- The deleteContact function: unconditional DELETE by id. -/
def deleteContact (cfg : Config) (contactId : String) : M Bool :=
  M.bind (ghlRequest cfg ("/contacts/" ++ contactId) ⟨some "DELETE", [], none⟩)
    (fun _ => M.pure true)

/-- Template interpolation of the contact.id property into a path. -/
def idString (c : Json) : String :=
  match c.getField "id" with
  | some v => v.toJsString
  | none => "undefined"

/-- The deleteContactByEmail function: search, return false when nothing
matched, else delete the found contact by id and return true. -/
def deleteContactByEmail (cfg : Config) (email : String) : M Bool :=
  M.bind (searchContactByEmail cfg email) (fun contact =>
    match contact with
    | none => M.pure false
    | some c => M.bind (deleteContact cfg (idString c)) (fun _ => M.pure true))

/-- Normalization of the tags argument: an array stays itself, anything else
becomes a one-element array. -/
def normTagsArray (tags : Json) : List Json :=
  match tags with
  | Json.arr xs => xs
  | t => [t]

/-- The expression contact.tags || [] followed by array spread: a tags array
spreads elementwise, a falsy value contributes nothing, a nonempty string
spreads into its characters, and any other truthy value raises a TypeError
(not iterable), modelled as a thrown error. -/
def existingTagsOf (contact : Json) : Except JsError (List Json) :=
  match contact.getField "tags" with
  | some (Json.arr xs) => Except.ok xs
  | some (Json.str s) =>
    if s == "" then Except.ok []
    else Except.ok (s.data.map (fun c => Json.str (String.mk [c])))
  | some v =>
    if v.truthy then Except.error ⟨"contact.tags is not iterable", none, none⟩
    else Except.ok []
  | none => Except.ok []

/-- One insertion step of a JavaScript Set: an element already present is
skipped, a new element is appended. -/
def insertOnce (acc : List Json) (x : Json) : List Json :=
  if acc.contains x then acc else acc ++ [x]

/-- Deduplication through a JavaScript Set: keeps the first occurrence of
each element, in insertion order. -/
def jsSetDedup (l : List Json) : List Json :=
  l.foldl insertOnce []

/-- The addTagsToContact function: normalize the tag argument, read the
current contact, union its tags with the new ones through a Set, and PUT the
full replacement tag list back. -/
def addTagsToContact (cfg : Config) (contactId : String) (tags : Json) : M Json :=
  let tagsArray := normTagsArray tags
  M.bind (ghlRequest cfg ("/contacts/" ++ contactId) noOptions) (fun currentContact =>
    let contact := jsOrVal (currentContact.getField "contact") currentContact
    M.bind (liftE (existingTagsOf contact)) (fun existingTags =>
      let newTags := jsSetDedup (existingTags ++ tagsArray)
      M.bind (ghlRequest cfg ("/contacts/" ++ contactId)
          ⟨some "PUT", [], some (Json.obj [("tags", Json.arr newTags)])⟩)
        (fun data => M.pure (jsOrVal (data.getField "contact") data))))

/-- The loop body of updateContactCustomFields: resolve each update key in
the field map and keep, in order, an id-value pair for each truthy
resolution, with the value coerced to string. -/
def resolveCustomFields (fieldDefinitions : List (String × Json))
    (fieldUpdates : List (String × Json)) : List Json :=
  fieldUpdates.foldl (fun acc kv =>
    match fieldDefinitions.lookup kv.1 with
    | some fieldId =>
      if fieldId.truthy then
        acc ++ [Json.obj [("id", fieldId), ("value", Json.str kv.2.toJsString)]]
      else acc
    | none => acc) []

/-- The updateContactCustomFields function: re-fetch the field definitions,
resolve the update keys, short-circuit to null when nothing resolved, else
PUT the resolved customField array and unwrap the contact. -/
def updateContactCustomFields (cfg : Config) (contactId : String)
    (fieldUpdates : List (String × Json)) : M Json :=
  M.bind (getCustomFieldDefinitions cfg) (fun fieldDefinitions =>
    let customFields := resolveCustomFields fieldDefinitions fieldUpdates
    if customFields.length == 0 then
      M.pure Json.null
    else
      M.bind (ghlRequest cfg ("/contacts/" ++ contactId)
          ⟨some "PUT", [], some (Json.obj [("customField", Json.arr customFields)])⟩)
        (fun data => M.pure (jsOrVal (data.getField "contact") data)))

/-- The fixed email payload posted by every candidate endpoint. -/
def emailPayload (contactId templateId : String) : Json :=
  Json.obj [("type", Json.str "Email"),
            ("contactId", Json.str contactId),
            ("templateId", Json.str templateId),
            ("subject", Json.str "Someone shared encouragement with you")]

/-- The request issued by the first candidate of sendEmailTemplate: the
services base with the location id passed as a request header.  The headers
are built inline (not through ghlServicesRequest) and the API key is
interpolated without a configuration check. -/
def inlineSendRequest (cfg : Config) (contactId templateId : String) : Request :=
  ⟨GHL_SERVICES_BASE, "/conversations/messages", "POST",
   [("Authorization", "Bearer " ++ envStr cfg.apiKey),
    ("Content-Type", "application/json"),
    ("Version", "2021-07-28"),
    ("locationId", envStr cfg.locationId)],
   some (emailPayload contactId templateId)⟩

/-- Response handling of the inline first candidate: its 401 and generic
errors interpolate only errorData.message, its JSON.parse on a JSON
content-type is not guarded (a parse failure surfaces as a thrown
SyntaxError, modelled with a fixed message), and its plain-text success
shape carries no raw field. -/
def handleInlineSendResponse (r : HttpResponse) : Except JsError Json :=
  if !r.isOk then
    let errorData := respErrorData r
    if r.status == 401 then
      Except.error ⟨"GHL API Authentication Failed (401): " ++
        jsFieldOr (errorData.getField "message") "Invalid API key",
        some "AUTH_ERROR", some 401⟩
    else
      Except.error ⟨"GHL Services API Error: " ++ Nat.repr r.status ++ " - " ++
        jsFieldOr (errorData.getField "message") r.statusText, none, none⟩
  else if jsTrim r.body == "" then
    Except.ok (Json.obj [("success", Json.bool true)])
  else if jsIncludes r.contentType "application/json" then
    match r.bodyJson with
    | some j => Except.ok j
    | none => Except.error ⟨"Unexpected token in JSON", none, none⟩
  else
    Except.ok (Json.obj [("success", Json.bool true), ("message", Json.str r.body)])

/-- The candidate endpoint list of sendEmailTemplate, in priority order:
services base with the location header (only with a configured location id),
services base through ghlServicesRequest, legacy REST base with the location
id in the path (only with a configured location id). -/
def sendCandidates (cfg : Config) (contactId templateId : String) : List (M Json) :=
  (if envTruthy cfg.locationId then
    [M.bind (fetch (inlineSendRequest cfg contactId templateId)) (fun r =>
      liftE (handleInlineSendResponse r))]
   else []) ++
  [ghlServicesRequest cfg "/conversations/messages"
    ⟨some "POST", [], some (emailPayload contactId templateId)⟩] ++
  (if envTruthy cfg.locationId then
    [ghlRequest cfg ("/locations/" ++ envStr cfg.locationId ++ "/conversations/messages")
      ⟨some "POST", [], some (emailPayload contactId templateId)⟩]
   else [])

/-- The continue classification of the fallback loop: a failure whose
message mentions 404, Not found, 401 or Invalid JWT moves on to the next
candidate; anything else aborts. -/
def isContinueError (e : JsError) : Bool :=
  !(e.message == "") &&
    (jsIncludes e.message "404" || jsIncludes e.message "Not found" ||
     jsIncludes e.message "401" || jsIncludes e.message "Invalid JWT")

/-- The aggregate error thrown when every candidate endpoint failed, built
from the last underlying error and the template id. -/
def allFailedError (lastError : Option JsError) (templateId : String) : JsError :=
  ⟨"All email endpoints failed. Last error: " ++
    ((match lastError with
      | some e => if e.message == "" then "Unknown error" else e.message
      | none => "Unknown error") ++
     (". Please verify the template ID (" ++ (templateId ++
      ") and API configuration. If you\x27re getting 401 errors, you may need to use an OAuth token instead of an API key for the services endpoint."))),
   none, none⟩

/-- The fallback loop of sendEmailTemplate over the remaining candidates,
carrying the last error seen. -/
def sendLoop (templateId : String) : List (M Json) → Option JsError → M Json
  | [], lastError => throwM (allFailedError lastError templateId)
  | c :: rest, _ =>
    catchM c (fun e =>
      if isContinueError e then sendLoop templateId rest (some e)
      else throwM e)

/-- The sendEmailTemplate function: try the candidate endpoints in priority
order until one succeeds. -/
def sendEmailTemplate (cfg : Config) (contactId templateId : String) : M Json :=
  sendLoop templateId (sendCandidates cfg contactId templateId) none

/-! ## Named requests and concrete fixtures -/

/-- The request of the first email-send candidate (services base, location
header). -/
def sendReq1 (cfg : Config) (contactId templateId : String) : Request :=
  inlineSendRequest cfg contactId templateId

/-- The request of the second email-send candidate (services base via
ghlServicesRequest, no location header). -/
def sendReq2 (cfg : Config) (contactId templateId : String) : Request :=
  mkServicesRequest cfg "/conversations/messages"
    ⟨some "POST", [], some (emailPayload contactId templateId)⟩

/-- The request of the third email-send candidate (legacy REST base with the
location id in the path). -/
def sendReq3 (cfg : Config) (contactId templateId : String) : Request :=
  mkRestRequest cfg ("/locations/" ++ envStr cfg.locationId ++ "/conversations/messages")
    ⟨some "POST", [], some (emailPayload contactId templateId)⟩

/-- A fully configured environment used for concrete evaluations. -/
def cfgW : Config := ⟨some "key", some "loc"⟩

/-- A 404 JSON error response (its body text abbreviates the serialized
form; bodyJson is its parse). -/
def r404W : HttpResponse :=
  ⟨404, "Not Found", "application/json", "err404",
   some (Json.obj [("message", Json.str "Not found")])⟩

/-- A search response whose body holds one partial and one exact
case-insensitive match for the query a@x.com. -/
def rSearchW : HttpResponse :=
  ⟨200, "OK", "application/json", "searchbody",
   some (Json.obj [("contacts", Json.arr
     [Json.obj [("id", Json.str "c9"), ("email", Json.str "ab@x.com")],
      Json.obj [("id", Json.str "c1"), ("email", Json.str "A@x.com")]])])⟩

/-- A search response with an empty contacts array. -/
def rNoneW : HttpResponse :=
  ⟨200, "OK", "application/json", "emptysearch",
   some (Json.obj [("contacts", Json.arr [])])⟩

/-- A success response whose JSON body is of none of the three recognized
search shapes. -/
def rWeirdW : HttpResponse :=
  ⟨200, "OK", "application/json", "weirdbody",
   some (Json.obj [("foo", Json.str "bar")])⟩

/-- A custom-field definition listing with a single prefixed field key. -/
def rFieldsW : HttpResponse :=
  ⟨200, "OK", "application/json", "fieldsbody",
   some (Json.obj [("customFields", Json.arr
     [Json.obj [("id", Json.str "f1"), ("fieldKey", Json.str "contact.foo")]])])⟩

/-- A contact read response carrying tags a and x. -/
def rContactW : HttpResponse :=
  ⟨200, "OK", "application/json", "contactbody",
   some (Json.obj [("contact", Json.obj
     [("id", Json.str "c1"),
      ("tags", Json.arr [Json.str "a", Json.str "x"])])])⟩

/-- A generic JSON success response for write calls. -/
def rPutW : HttpResponse :=
  ⟨200, "OK", "application/json", "putbody",
   some (Json.obj [("contact", Json.obj [("id", Json.str "c1")])])⟩

/-- A plain-text success response, as a delete acknowledgement. -/
def rTextW : HttpResponse :=
  ⟨200, "OK", "text/plain", "OK", none⟩

/-- Contact data providing an email and an empty-string firstName. -/
def contactDataCx : Json :=
  Json.obj [("email", Json.str "user@example.com"), ("firstName", Json.str "")]

/-- The services-side error produced by a 404 on the first two candidates. -/
def e404ServicesW : JsError :=
  ⟨"GHL Services API Error: 404 - Not found", none, none⟩

/-- The REST-side error produced by a 404 on the third candidate. -/
def e404RestW : JsError :=
  ⟨"GHL API Error: 404 - Not found", none, none⟩

/-- Contact data with an email and a truthy firstName. -/
def dC9W : Json :=
  Json.obj [("email", Json.str "e@x.com"), ("firstName", Json.str "Ann")]

/-! ## Run lemmas for the scripted network -/

theorem ghlRequest_run (cfg : Config) (endpoint : String) (opts : RequestOptions)
    (r : HttpResponse) (rest : List HttpResponse) (cs : List Request)
    (hkey : envTruthy cfg.apiKey = true) :
    ghlRequest cfg endpoint opts ⟨r :: rest, cs⟩ =
      (handleRestResponse r, ⟨rest, cs ++ [mkRestRequest cfg endpoint opts]⟩) := by
  simp [ghlRequest, hkey, M.bind, fetch, liftE]

theorem ghlServicesRequest_run (cfg : Config) (endpoint : String) (opts : RequestOptions)
    (r : HttpResponse) (rest : List HttpResponse) (cs : List Request)
    (hkey : envTruthy cfg.apiKey = true) :
    ghlServicesRequest cfg endpoint opts ⟨r :: rest, cs⟩ =
      (handleServicesResponse r, ⟨rest, cs ++ [mkServicesRequest cfg endpoint opts]⟩) := by
  simp [ghlServicesRequest, hkey, M.bind, fetch, liftE]

theorem ghlRequest_missingKey (cfg : Config) (endpoint : String) (opts : RequestOptions)
    (s : NetState) (hkey : envTruthy cfg.apiKey = false) :
    ghlRequest cfg endpoint opts s = (Except.error restMissingKeyError, s) := by
  simp [ghlRequest, hkey, throwM]

theorem ghlServicesRequest_missingKey (cfg : Config) (endpoint : String)
    (opts : RequestOptions) (s : NetState) (hkey : envTruthy cfg.apiKey = false) :
    ghlServicesRequest cfg endpoint opts s = (Except.error servicesMissingKeyError, s) := by
  simp [ghlServicesRequest, hkey, throwM]

theorem searchContactByEmail_run (cfg : Config) (email : String)
    (r : HttpResponse) (rest : List HttpResponse) (cs : List Request)
    (data : Json) (ms : List Json)
    (hkey : envTruthy cfg.apiKey = true)
    (hresp : handleRestResponse r = Except.ok data)
    (hfilter : filterE (emailMatchesE email) (extractContacts data) = Except.ok ms) :
    searchContactByEmail cfg email ⟨r :: rest, cs⟩ =
      (Except.ok ms.head?,
       ⟨rest, cs ++ [mkRestRequest cfg (searchEndpoint email) noOptions]⟩) := by
  simp [searchContactByEmail, M.bind,
        ghlRequest_run cfg (searchEndpoint email) noOptions r rest cs hkey,
        hresp, liftE, hfilter, M.pure]

/-! ## Helper lemmas -/

theorem head?_filter_eq_find? {α : Type} (p : α → Bool) :
    ∀ (l : List α), (l.filter p).head? = l.find? p
  | [] => rfl
  | x :: xs => by
    by_cases hp : p x
    · simp [List.filter_cons, List.find?_cons, hp]
    · simp only [Bool.not_eq_true] at hp
      simp [List.filter_cons, List.find?_cons, hp, head?_filter_eq_find? p xs]

theorem filterE_emailMatches (email : String) :
    ∀ (l : List Json),
      (∀ c ∈ l, emailFieldSafe c = true) →
      filterE (emailMatchesE email) l = Except.ok (l.filter (emailMatchB email))
  | [], _ => rfl
  | c :: cs, hsafe => by
    have hrest := filterE_emailMatches email cs (fun d hd => hsafe d (List.mem_cons_of_mem c hd))
    have hsc := hsafe c (List.mem_cons_self c cs)
    have hhead : emailMatchesE email c = Except.ok (emailMatchB email c) := by
      cases hv : c.getField "email" with
      | none => simp [emailMatchesE, emailMatchB, hv]
      | some v =>
        cases v with
        | str s => simp [emailMatchesE, emailMatchB, hv]
        | null => simp [emailMatchesE, emailMatchB, hv, Json.truthy]
        | bool b =>
          have hf : (Json.bool b).truthy = false := by
            simpa [emailFieldSafe, hv] using hsc
          simp [emailMatchesE, emailMatchB, hv, hf]
        | num n =>
          have hf : (Json.num n).truthy = false := by
            simpa [emailFieldSafe, hv] using hsc
          simp [emailMatchesE, emailMatchB, hv, hf]
        | arr xs =>
          have hf : (Json.arr xs).truthy = false := by
            simpa [emailFieldSafe, hv] using hsc
          exact absurd hf (by simp [Json.truthy])
        | obj fs =>
          have hf : (Json.obj fs).truthy = false := by
            simpa [emailFieldSafe, hv] using hsc
          exact absurd hf (by simp [Json.truthy])
    by_cases hb : emailMatchB email c
    · simp [filterE, hhead, hrest, List.filter_cons, hb]
    · simp only [Bool.not_eq_true] at hb
      simp [filterE, hhead, hrest, List.filter_cons, hb]

/-- When the search response matches none of the three recognized shapes,
no contacts are extracted. -/
theorem extractContacts_eq_nil (data : Json)
    (hnc : ∀ xs, data.getField "contacts" ≠ some (Json.arr xs))
    (hc1 : truthyOpt (data.getField "contact") = false)
    (hna : ∀ xs, data ≠ Json.arr xs) :
    extractContacts data = [] := by
  unfold extractContacts
  cases hv : data.getField "contacts" with
  | some v =>
    cases v with
    | arr xs => exact absurd hv (hnc xs)
    | null =>
      cases hw : data.getField "contact" with
      | some w =>
        have hwf : w.truthy = false := by simpa [truthyOpt, hw] using hc1
        cases hd : data with
        | arr xs => exact absurd hd (hna xs)
        | null => simp [hwf]
        | bool b => simp [hwf]
        | num n => simp [hwf]
        | str s => simp [hwf]
        | obj fs => simp [hwf]
      | none =>
        cases hd : data with
        | arr xs => exact absurd hd (hna xs)
        | null => simp
        | bool b => simp
        | num n => simp
        | str s => simp
        | obj fs => simp
    | bool b =>
      cases hw : data.getField "contact" with
      | some w =>
        have hwf : w.truthy = false := by simpa [truthyOpt, hw] using hc1
        cases hd : data with
        | arr xs => exact absurd hd (hna xs)
        | null => simp [hwf]
        | bool c => simp [hwf]
        | num n => simp [hwf]
        | str s => simp [hwf]
        | obj fs => simp [hwf]
      | none =>
        cases hd : data with
        | arr xs => exact absurd hd (hna xs)
        | null => simp
        | bool c => simp
        | num n => simp
        | str s => simp
        | obj fs => simp
    | num n =>
      cases hw : data.getField "contact" with
      | some w =>
        have hwf : w.truthy = false := by simpa [truthyOpt, hw] using hc1
        cases hd : data with
        | arr xs => exact absurd hd (hna xs)
        | null => simp [hwf]
        | bool c => simp [hwf]
        | num m => simp [hwf]
        | str s => simp [hwf]
        | obj fs => simp [hwf]
      | none =>
        cases hd : data with
        | arr xs => exact absurd hd (hna xs)
        | null => simp
        | bool c => simp
        | num m => simp
        | str s => simp
        | obj fs => simp
    | str s =>
      cases hw : data.getField "contact" with
      | some w =>
        have hwf : w.truthy = false := by simpa [truthyOpt, hw] using hc1
        cases hd : data with
        | arr xs => exact absurd hd (hna xs)
        | null => simp [hwf]
        | bool c => simp [hwf]
        | num m => simp [hwf]
        | str t => simp [hwf]
        | obj fs => simp [hwf]
      | none =>
        cases hd : data with
        | arr xs => exact absurd hd (hna xs)
        | null => simp
        | bool c => simp
        | num m => simp
        | str t => simp
        | obj fs => simp
    | obj gs =>
      cases hw : data.getField "contact" with
      | some w =>
        have hwf : w.truthy = false := by simpa [truthyOpt, hw] using hc1
        cases hd : data with
        | arr xs => exact absurd hd (hna xs)
        | null => simp [hwf]
        | bool c => simp [hwf]
        | num m => simp [hwf]
        | str t => simp [hwf]
        | obj fs => simp [hwf]
      | none =>
        cases hd : data with
        | arr xs => exact absurd hd (hna xs)
        | null => simp
        | bool c => simp
        | num m => simp
        | str t => simp
        | obj fs => simp
  | none =>
    cases hw : data.getField "contact" with
    | some w =>
      have hwf : w.truthy = false := by simpa [truthyOpt, hw] using hc1
      cases hd : data with
      | arr xs => exact absurd hd (hna xs)
      | null => simp [hwf]
      | bool c => simp [hwf]
      | num m => simp [hwf]
      | str t => simp [hwf]
      | obj fs => simp [hwf]
    | none =>
      cases hd : data with
      | arr xs => exact absurd hd (hna xs)
      | null => simp
      | bool c => simp
      | num m => simp
      | str t => simp
      | obj fs => simp

theorem containsJ_iff : ∀ (l : List Json) (x : Json), l.contains x = true ↔ x ∈ l
  | [], x => by simp [List.contains, List.elem]
  | a :: l, x => by
    by_cases hx : x = a
    · subst hx
      simp [List.contains, List.elem]
    · have hb : (x == a) = false := beq_false_of_ne hx
      simp [List.contains, List.elem, hb, hx]

theorem mem_insertOnce (acc : List Json) (x a : Json) :
    a ∈ insertOnce acc x ↔ (a ∈ acc ∨ a = x) := by
  unfold insertOnce
  by_cases hc : acc.contains x = true
  · have hx : x ∈ acc := (containsJ_iff acc x).mp hc
    rw [if_pos hc]
    constructor
    · exact Or.inl
    · rintro (h | h)
      · exact h
      · exact h ▸ hx
  · rw [if_neg hc]
    simp

theorem nodup_insertOnce (acc : List Json) (x : Json) (h : acc.Nodup) :
    (insertOnce acc x).Nodup := by
  unfold insertOnce
  by_cases hc : acc.contains x = true
  · rw [if_pos hc]; exact h
  · rw [if_neg hc]
    have hx : x ∉ acc := fun hm => hc ((containsJ_iff acc x).mpr hm)
    simp [List.nodup_append, h, hx]

theorem mem_foldl_insertOnce : ∀ (l acc : List Json) (a : Json),
    a ∈ l.foldl insertOnce acc ↔ (a ∈ acc ∨ a ∈ l)
  | [], acc, a => by simp
  | x :: xs, acc, a => by
    simp only [List.foldl_cons]
    rw [mem_foldl_insertOnce xs (insertOnce acc x) a, mem_insertOnce]
    constructor
    · rintro ((h | h) | h)
      · exact Or.inl h
      · exact Or.inr (by simp [h])
      · exact Or.inr (List.mem_cons_of_mem x h)
    · rintro (h | h)
      · exact Or.inl (Or.inl h)
      · rcases List.mem_cons.mp h with h | h
        · exact Or.inl (Or.inr h)
        · exact Or.inr h

theorem nodup_foldl_insertOnce : ∀ (l acc : List Json), acc.Nodup →
    (l.foldl insertOnce acc).Nodup
  | [], _, h => h
  | x :: xs, acc, h => by
    simp only [List.foldl_cons]
    exact nodup_foldl_insertOnce xs (insertOnce acc x) (nodup_insertOnce acc x h)

theorem mem_jsSetDedup (l : List Json) (a : Json) : a ∈ jsSetDedup l ↔ a ∈ l := by
  unfold jsSetDedup
  rw [mem_foldl_insertOnce]
  simp

theorem nodup_jsSetDedup (l : List Json) : (jsSetDedup l).Nodup :=
  nodup_foldl_insertOnce l [] List.nodup_nil

theorem count_jsSetDedup_of_mem (l : List Json) (a : Json) (h : a ∈ l) :
    (jsSetDedup l).count a = 1 :=
  List.count_eq_one_of_mem (nodup_jsSetDedup l) ((mem_jsSetDedup l a).mpr h)

theorem resolveCustomFields_foldl (m : List (String × Json)) :
    ∀ (updates : List (String × Json)) (acc : List Json),
      (∀ kv ∈ updates, truthyOpt (m.lookup kv.1) = false) →
      updates.foldl (fun acc kv =>
        match m.lookup kv.1 with
        | some fieldId =>
          if fieldId.truthy then
            acc ++ [Json.obj [("id", fieldId), ("value", Json.str kv.2.toJsString)]]
          else acc
        | none => acc) acc = acc
  | [], _, _ => rfl
  | kv :: updates, acc, h => by
    have hstep : (match m.lookup kv.1 with
        | some fieldId =>
          if fieldId.truthy then
            acc ++ [Json.obj [("id", fieldId), ("value", Json.str kv.2.toJsString)]]
          else acc
        | none => acc) = acc := by
      cases hl : m.lookup kv.1 with
      | none => rfl
      | some fieldId =>
        have hf : fieldId.truthy = false := by
          have := h kv (List.mem_cons_self kv updates)
          simpa [truthyOpt, hl] using this
        simp [hf]
    simp only [List.foldl_cons, hstep]
    exact resolveCustomFields_foldl m updates acc
      (fun kw hkw => h kw (List.mem_cons_of_mem kv hkw))

theorem resolveCustomFields_eq_nil (m : List (String × Json))
    (updates : List (String × Json))
    (h : ∀ kv ∈ updates, truthyOpt (m.lookup kv.1) = false) :
    resolveCustomFields m updates = [] := by
  unfold resolveCustomFields
  exact resolveCustomFields_foldl m updates [] h

theorem lookup_append {β : Type} : ∀ (l1 l2 : List (String × β)) (k : String),
    (l1 ++ l2).lookup k =
      (match l1.lookup k with
       | some v => some v
       | none => l2.lookup k)
  | [], _, _ => rfl
  | (k1, v1) :: l1, l2, k => by
    by_cases hk : k = k1
    · subst hk
      simp [List.lookup]
    · have hb : (k == k1) = false := beq_false_of_ne hk
      simp [List.lookup, hb, lookup_append l1 l2 k]

theorem jsIncludesAux_middle (t q : List Char) (ht : t ≠ []) :
    ∀ (p : List Char), jsIncludesAux t (p ++ (t ++ q)) = true
  | [] => by
    cases t with
    | nil => exact absurd rfl ht
    | cons c cs =>
      have hp : (c :: cs).isPrefixOf ((c :: cs) ++ q) = true :=
        List.isPrefixOf_iff_prefix.mpr (List.prefix_append _ _)
      show jsIncludesAux (c :: cs) ((c :: cs) ++ q) = true
      rw [List.cons_append]
      show ((c :: cs).isPrefixOf (c :: (cs ++ q)) || jsIncludesAux (c :: cs) (cs ++ q)) = true
      rw [List.cons_append] at hp
      rw [hp]
      rfl
  | c :: p => by
    show (t.isPrefixOf (c :: (p ++ (t ++ q))) || jsIncludesAux t (p ++ (t ++ q))) = true
    rw [jsIncludesAux_middle t q ht p]
    exact Bool.or_true _

theorem jsIncludes_middle (a t b : String) : jsIncludes (a ++ (t ++ b)) t = true := by
  by_cases ht : t = ""
  · simp [jsIncludes, ht]
  · have hbeq : (t == "") = false := beq_false_of_ne ht
    have htd : t.data ≠ [] := by
      intro hd
      apply ht
      apply String.ext
      rw [hd]
    have hrw : (a ++ (t ++ b)).data = a.data ++ (t.data ++ b.data) := by
      simp
    simp only [jsIncludes, hbeq, Bool.false_eq_true, if_false, hrw]
    exact jsIncludesAux_middle t.data b.data htd a.data

theorem createContact_run (cfg : Config) (contactData : Json)
    (r : HttpResponse) (rest : List HttpResponse) (cs : List Request) (data : Json)
    (hkey : envTruthy cfg.apiKey = true)
    (hresp : handleRestResponse r = Except.ok data) :
    createContact cfg contactData ⟨r :: rest, cs⟩ =
      (Except.ok (jsOrVal (data.getField "contact") data),
       ⟨rest, cs ++ [mkRestRequest cfg "/contacts/"
          ⟨some "POST", [], some (createPayload contactData)⟩]⟩) := by
  simp [createContact, M.bind,
        ghlRequest_run cfg "/contacts/"
          ⟨some "POST", [], some (createPayload contactData)⟩ r rest cs hkey,
        hresp, M.pure]

theorem deleteContact_run (cfg : Config) (contactId : String)
    (r : HttpResponse) (rest : List HttpResponse) (cs : List Request)
    (hkey : envTruthy cfg.apiKey = true) :
    deleteContact cfg contactId ⟨r :: rest, cs⟩ =
      ((handleRestResponse r).map (fun _ => true),
       ⟨rest, cs ++ [mkRestRequest cfg ("/contacts/" ++ contactId)
          ⟨some "DELETE", [], none⟩]⟩) := by
  cases hr : handleRestResponse r with
  | ok v =>
    simp [deleteContact, M.bind,
          ghlRequest_run cfg ("/contacts/" ++ contactId) ⟨some "DELETE", [], none⟩ r rest cs hkey,
          hr, M.pure, Except.map]
  | error e =>
    simp [deleteContact, M.bind,
          ghlRequest_run cfg ("/contacts/" ++ contactId) ⟨some "DELETE", [], none⟩ r rest cs hkey,
          hr, Except.map]

theorem getCustomFieldDefinitions_run (cfg : Config)
    (r : HttpResponse) (rest : List HttpResponse) (cs : List Request)
    (data : Json) (fields : List Json) (m : List (String × Json))
    (hkey : envTruthy cfg.apiKey = true)
    (hresp : handleRestResponse r = Except.ok data)
    (hcf : data.getField "customFields" = some (Json.arr fields))
    (hbuild : buildFieldMap fields = Except.ok m) :
    getCustomFieldDefinitions cfg ⟨r :: rest, cs⟩ =
      (Except.ok m, ⟨rest, cs ++ [mkRestRequest cfg (customFieldsEndpoint cfg) noOptions]⟩) := by
  simp [getCustomFieldDefinitions, M.bind,
        ghlRequest_run cfg (customFieldsEndpoint cfg) noOptions r rest cs hkey,
        hresp, hcf, liftE, hbuild]

/-! ## Claim theorems -/

/-- C7: for every successful (2xx) upstream response, the request executor
returns by content negotiation: an empty or whitespace-only body yields a
bare success object, a body with a JSON content-type yields the parsed JSON
object, and any other non-empty body yields a success object carrying the
raw text as both message and raw. -/
theorem C7_ghlRequest_content_negotiation (cfg : Config) (endpoint : String)
    (opts : RequestOptions) (r : HttpResponse) (rest : List HttpResponse) (j : Json)
    (hkey : envTruthy cfg.apiKey = true) (hok : r.isOk = true) :
    (jsTrim r.body = "" →
      runM (ghlRequest cfg endpoint opts) (r :: rest) =
        (Except.ok (Json.obj [("success", Json.bool true)]),
         ⟨rest, [mkRestRequest cfg endpoint opts]⟩)) ∧
    (jsTrim r.body ≠ "" → jsIncludes r.contentType "application/json" = true →
      r.bodyJson = some j →
      runM (ghlRequest cfg endpoint opts) (r :: rest) =
        (Except.ok j, ⟨rest, [mkRestRequest cfg endpoint opts]⟩)) ∧
    (jsTrim r.body ≠ "" → jsIncludes r.contentType "application/json" = false →
      runM (ghlRequest cfg endpoint opts) (r :: rest) =
        (Except.ok (Json.obj [("success", Json.bool true),
                              ("message", Json.str r.body),
                              ("raw", Json.str r.body)]),
         ⟨rest, [mkRestRequest cfg endpoint opts]⟩)) := by
  have hrun := ghlRequest_run cfg endpoint opts r rest [] hkey
  refine ⟨?_, ?_, ?_⟩
  · intro h1
    simp [runM, hrun, handleRestResponse, hok, h1]
  · intro h1 h2 h3
    have hb : (jsTrim r.body == "") = false := beq_false_of_ne h1
    simp [runM, hrun, handleRestResponse, hok, hb, h2, h3]
  · intro h1 h2
    have hb : (jsTrim r.body == "") = false := beq_false_of_ne h1
    simp [runM, hrun, handleRestResponse, hok, hb, h2]

/-- C7 witness: a 2xx plain-text OK body yields the success object with the
raw text attached. -/
theorem C7_witness :
    runM (ghlRequest cfgW "/contacts/c1" ⟨some "DELETE", [], none⟩) [rTextW] =
      (Except.ok (Json.obj [("success", Json.bool true),
                            ("message", Json.str "OK"),
                            ("raw", Json.str "OK")]),
       ⟨[], [mkRestRequest cfgW "/contacts/c1" ⟨some "DELETE", [], none⟩]⟩) :=
  ((C7_ghlRequest_content_negotiation cfgW "/contacts/c1" ⟨some "DELETE", [], none⟩
      rTextW [] Json.null (by decide) (by decide)).2.2) (by decide) (by decide)

/-- C6 counterexample: with the credential unset, the services-base executor
fails with an error that carries no code field at all, refuting the claim
that the executor failure carries an error code identifying the missing API
key. -/
theorem C6_counterexample :
    ghlServicesRequest ⟨none, some "loc"⟩ "/conversations/messages" noOptions ⟨[], []⟩ =
      (Except.error servicesMissingKeyError, ⟨[], []⟩) ∧
    servicesMissingKeyError.code = none ∧
    ¬ servicesMissingKeyError.code = some "MISSING_API_KEY" :=
  ⟨rfl, rfl, by decide⟩

/-- C6 amended: with the credential absent both executors fail immediately
with the configuration error, issuing no network call; the ghlRequest error
carries the code MISSING_API_KEY, while the ghlServicesRequest error carries
the same message but no code. -/
theorem C6_missing_key (cfg : Config) (endpoint : String) (opts : RequestOptions)
    (s : NetState) (hkey : envTruthy cfg.apiKey = false) :
    ghlRequest cfg endpoint opts s = (Except.error restMissingKeyError, s) ∧
    ghlServicesRequest cfg endpoint opts s = (Except.error servicesMissingKeyError, s) ∧
    restMissingKeyError.code = some "MISSING_API_KEY" ∧
    servicesMissingKeyError.code = none ∧
    servicesMissingKeyError.message = restMissingKeyError.message :=
  ⟨ghlRequest_missingKey cfg endpoint opts s hkey,
   ghlServicesRequest_missingKey cfg endpoint opts s hkey, rfl, rfl, rfl⟩

/-- C6 witness: a concrete unconfigured environment makes ghlRequest fail
with the MISSING_API_KEY configuration error and no recorded call. -/
theorem C6_witness :
    ghlRequest ⟨none, some "loc"⟩ "/contacts/" noOptions ⟨[], []⟩ =
      (Except.error restMissingKeyError, ⟨[], []⟩) ∧
    restMissingKeyError.code = some "MISSING_API_KEY" := by
  have h := C6_missing_key ⟨none, some "loc"⟩ "/contacts/" noOptions ⟨[], []⟩ (by decide)
  exact ⟨h.1, h.2.2.1⟩

/-- C2: for every queried email and every upstream search response, the
search returns the first extracted contact whose email matches the query
exactly under case-insensitive comparison, or null when no contact matches
exactly; partially matching contacts are never returned, and an empty match
set is reported as null rather than by a thrown error. -/
theorem C2_search_exact_match (cfg : Config) (email : String)
    (r : HttpResponse) (rest : List HttpResponse) (data : Json)
    (hkey : envTruthy cfg.apiKey = true)
    (hresp : handleRestResponse r = Except.ok data)
    (hsafe : ∀ c ∈ extractContacts data, emailFieldSafe c = true) :
    runM (searchContactByEmail cfg email) (r :: rest) =
      (Except.ok ((extractContacts data).find? (emailMatchB email)),
       ⟨rest, [mkRestRequest cfg (searchEndpoint email) noOptions]⟩) ∧
    (∀ c, (extractContacts data).find? (emailMatchB email) = some c →
      c ∈ extractContacts data ∧ emailMatchB email c = true) ∧
    ((∀ c ∈ extractContacts data, emailMatchB email c = false) →
      runM (searchContactByEmail cfg email) (r :: rest) =
        (Except.ok none, ⟨rest, [mkRestRequest cfg (searchEndpoint email) noOptions]⟩)) := by
  have hfilter := filterE_emailMatches email (extractContacts data) hsafe
  have hrun := searchContactByEmail_run cfg email r rest []
    data ((extractContacts data).filter (emailMatchB email)) hkey hresp hfilter
  have hhead := head?_filter_eq_find? (emailMatchB email) (extractContacts data)
  refine ⟨?_, ?_, ?_⟩
  · show searchContactByEmail cfg email ⟨r :: rest, []⟩ = _
    rw [hrun]
    simp [hhead]
  · intro c hc
    exact ⟨List.mem_of_find?_eq_some hc, List.find?_some hc⟩
  · intro hall
    have hnone : (extractContacts data).find? (emailMatchB email) = none :=
      List.find?_eq_none.mpr (fun x hx => by simp [hall x hx])
    show searchContactByEmail cfg email ⟨r :: rest, []⟩ = _
    rw [hrun]
    simp [hhead, hnone]

/-- C2 witness: queried with a@x.com against a response holding a partial
match ab@x.com first and an exact case-different match A@x.com second, the
search returns the exact match. -/
theorem C2_witness :
    runM (searchContactByEmail cfgW "a@x.com") [rSearchW] =
      (Except.ok (some (Json.obj [("id", Json.str "c1"), ("email", Json.str "A@x.com")])),
       ⟨[], [mkRestRequest cfgW (searchEndpoint "a@x.com") noOptions]⟩) := by
  have h := (C2_search_exact_match cfgW "a@x.com" rSearchW []
    (Json.obj [("contacts", Json.arr
      [Json.obj [("id", Json.str "c9"), ("email", Json.str "ab@x.com")],
       Json.obj [("id", Json.str "c1"), ("email", Json.str "A@x.com")]])])
    (by decide) rfl (by decide)).1
  rw [h]
  rfl

/-- C10: a successful search response whose JSON body is of none of the
three recognized shapes (an object with a contacts array, an object with a
truthy contact field, a bare array) is treated as an empty contact list:
the search returns null and does not throw. -/
theorem C10_unrecognized_shape_null (cfg : Config) (email : String)
    (r : HttpResponse) (rest : List HttpResponse) (data : Json)
    (hkey : envTruthy cfg.apiKey = true)
    (hresp : handleRestResponse r = Except.ok data)
    (hnc : ∀ xs, data.getField "contacts" ≠ some (Json.arr xs))
    (hc1 : truthyOpt (data.getField "contact") = false)
    (hna : ∀ xs, data ≠ Json.arr xs) :
    runM (searchContactByEmail cfg email) (r :: rest) =
      (Except.ok none, ⟨rest, [mkRestRequest cfg (searchEndpoint email) noOptions]⟩) := by
  have hempty := extractContacts_eq_nil data hnc hc1 hna
  have hfilter : filterE (emailMatchesE email) (extractContacts data) = Except.ok [] := by
    rw [hempty]
    rfl
  have hrun := searchContactByEmail_run cfg email r rest [] data [] hkey hresp hfilter
  show searchContactByEmail cfg email ⟨r :: rest, []⟩ = _
  rw [hrun]
  simp

/-- C10 witness: a success body that is a plain object with neither contacts
nor contact fields yields null without an error. -/
theorem C10_witness :
    runM (searchContactByEmail cfgW "a@x.com") [rWeirdW] =
      (Except.ok none, ⟨[], [mkRestRequest cfgW (searchEndpoint "a@x.com") noOptions]⟩) := by
  exact C10_unrecognized_shape_null cfgW "a@x.com" rWeirdW []
    (Json.obj [("foo", Json.str "bar")])
    (by decide) rfl
    (by intro xs h; nomatch h)
    (by decide)
    (by intro xs h; nomatch h)

/-- C3: whenever the search returns a contact, findOrCreateContact returns
that contact after the single search request and issues no create request;
a create POST is issued only when the search returned null. -/
theorem C3_findOrCreate_no_create_when_found (cfg : Config) (email : String)
    (contactData : Json) (r r2 : HttpResponse) (rest : List HttpResponse)
    (data : Json) (ms : List Json)
    (hkey : envTruthy cfg.apiKey = true)
    (hresp : handleRestResponse r = Except.ok data)
    (hfilter : filterE (emailMatchesE email) (extractContacts data) = Except.ok ms) :
    (∀ c, ms.head? = some c →
      runM (findOrCreateContact cfg email contactData) (r :: rest) =
        (Except.ok c, ⟨rest, [mkRestRequest cfg (searchEndpoint email) noOptions]⟩) ∧
      (mkRestRequest cfg (searchEndpoint email) noOptions).method = "GET") ∧
    (ms.head? = none → ∀ d2, handleRestResponse r2 = Except.ok d2 →
      runM (findOrCreateContact cfg email contactData) (r :: r2 :: rest) =
        (Except.ok (jsOrVal (d2.getField "contact") d2),
         ⟨rest, [mkRestRequest cfg (searchEndpoint email) noOptions,
                 mkRestRequest cfg "/contacts/" ⟨some "POST", [], some (createPayload
                   (Json.obj (spreadMerge [("email", Json.str email)] contactData)))⟩]⟩) ∧
      (mkRestRequest cfg "/contacts/" ⟨some "POST", [], some (createPayload
        (Json.obj (spreadMerge [("email", Json.str email)] contactData)))⟩).method =
        "POST") := by
  constructor
  · intro c hc
    have hrun := searchContactByEmail_run cfg email r rest [] data ms hkey hresp hfilter
    constructor
    · show findOrCreateContact cfg email contactData ⟨r :: rest, []⟩ = _
      simp [findOrCreateContact, M.bind, hrun, hc, M.pure]
    · rfl
  · intro hc d2 hd2
    have hrun := searchContactByEmail_run cfg email r (r2 :: rest) [] data ms hkey hresp hfilter
    have hcreate := createContact_run cfg
      (Json.obj (spreadMerge [("email", Json.str email)] contactData)) r2 rest
      [mkRestRequest cfg (searchEndpoint email) noOptions] d2 hkey hd2
    constructor
    · show findOrCreateContact cfg email contactData ⟨r :: r2 :: rest, []⟩ = _
      simp [findOrCreateContact, M.bind, hrun, hc, hcreate]
    · rfl

/-- C3 witness: with an existing exact match for a@x.com, findOrCreateContact
returns the found contact after a single GET request and no POST. -/
theorem C3_witness :
    runM (findOrCreateContact cfgW "a@x.com" (Json.obj [("name", Json.str "N")])) [rSearchW] =
      (Except.ok (Json.obj [("id", Json.str "c1"), ("email", Json.str "A@x.com")]),
       ⟨[], [mkRestRequest cfgW (searchEndpoint "a@x.com") noOptions]⟩) ∧
    (mkRestRequest cfgW (searchEndpoint "a@x.com") noOptions).method = "GET" := by
  exact (C3_findOrCreate_no_create_when_found cfgW "a@x.com"
    (Json.obj [("name", Json.str "N")]) rSearchW rSearchW []
    (Json.obj [("contacts", Json.arr
      [Json.obj [("id", Json.str "c9"), ("email", Json.str "ab@x.com")],
       Json.obj [("id", Json.str "c1"), ("email", Json.str "A@x.com")]])])
    [Json.obj [("id", Json.str "c1"), ("email", Json.str "A@x.com")]]
    (by decide) rfl rfl).1
    (Json.obj [("id", Json.str "c1"), ("email", Json.str "A@x.com")]) rfl

/-- C8: deleteContactByEmail searches first; with no match it returns false
after the single search request, issuing no delete; with a match it issues a
DELETE for the found id and returns true on success, while a failing delete
propagates its error rather than returning false. -/
theorem C8_deleteContactByEmail_spec (cfg : Config) (email : String)
    (r r2 : HttpResponse) (rest : List HttpResponse) (data : Json) (ms : List Json)
    (hkey : envTruthy cfg.apiKey = true)
    (hresp : handleRestResponse r = Except.ok data)
    (hfilter : filterE (emailMatchesE email) (extractContacts data) = Except.ok ms) :
    (ms.head? = none →
      runM (deleteContactByEmail cfg email) (r :: rest) =
        (Except.ok false, ⟨rest, [mkRestRequest cfg (searchEndpoint email) noOptions]⟩) ∧
      (mkRestRequest cfg (searchEndpoint email) noOptions).method = "GET") ∧
    (∀ c, ms.head? = some c → ∀ d2, handleRestResponse r2 = Except.ok d2 →
      runM (deleteContactByEmail cfg email) (r :: r2 :: rest) =
        (Except.ok true,
         ⟨rest, [mkRestRequest cfg (searchEndpoint email) noOptions,
                 mkRestRequest cfg ("/contacts/" ++ idString c)
                   ⟨some "DELETE", [], none⟩]⟩)) ∧
    (∀ c, ms.head? = some c → ∀ e2, handleRestResponse r2 = Except.error e2 →
      runM (deleteContactByEmail cfg email) (r :: r2 :: rest) =
        (Except.error e2,
         ⟨rest, [mkRestRequest cfg (searchEndpoint email) noOptions,
                 mkRestRequest cfg ("/contacts/" ++ idString c)
                   ⟨some "DELETE", [], none⟩]⟩)) := by
  refine ⟨?_, ?_, ?_⟩
  · intro hc
    have hrun := searchContactByEmail_run cfg email r rest [] data ms hkey hresp hfilter
    constructor
    · show deleteContactByEmail cfg email ⟨r :: rest, []⟩ = _
      simp [deleteContactByEmail, M.bind, hrun, hc, M.pure]
    · rfl
  · intro c hc d2 hd2
    have hrun := searchContactByEmail_run cfg email r (r2 :: rest) [] data ms hkey hresp hfilter
    have hdel := deleteContact_run cfg (idString c) r2 rest
      [mkRestRequest cfg (searchEndpoint email) noOptions] hkey
    show deleteContactByEmail cfg email ⟨r :: r2 :: rest, []⟩ = _
    simp [deleteContactByEmail, M.bind, hrun, hc, hdel, hd2, Except.map, M.pure]
  · intro c hc e2 he2
    have hrun := searchContactByEmail_run cfg email r (r2 :: rest) [] data ms hkey hresp hfilter
    have hdel := deleteContact_run cfg (idString c) r2 rest
      [mkRestRequest cfg (searchEndpoint email) noOptions] hkey
    show deleteContactByEmail cfg email ⟨r :: r2 :: rest, []⟩ = _
    simp [deleteContactByEmail, M.bind, hrun, hc, hdel, he2, Except.map]

/-- C8 witness: deleting by an email with no matching contact returns false
after one GET request and no DELETE. -/
theorem C8_witness :
    runM (deleteContactByEmail cfgW "a@x.com") [rNoneW] =
      (Except.ok false, ⟨[], [mkRestRequest cfgW (searchEndpoint "a@x.com") noOptions]⟩) ∧
    (mkRestRequest cfgW (searchEndpoint "a@x.com") noOptions).method = "GET" := by
  exact (C8_deleteContactByEmail_spec cfgW "a@x.com" rNoneW rNoneW []
    (Json.obj [("contacts", Json.arr [])]) []
    (by decide) rfl rfl).1 rfl

/-- C4: when none of the update keys resolve against the freshly fetched
definition map, updateContactCustomFields performs zero write requests (the
only request issued is the definitions GET) and returns a null result, the
unresolved keys being dropped without failing the call. -/
theorem C4_no_resolved_keys (cfg : Config) (contactId : String)
    (updates : List (String × Json)) (r : HttpResponse) (rest : List HttpResponse)
    (data : Json) (fields : List Json) (m : List (String × Json))
    (hkey : envTruthy cfg.apiKey = true)
    (hresp : handleRestResponse r = Except.ok data)
    (hcf : data.getField "customFields" = some (Json.arr fields))
    (hbuild : buildFieldMap fields = Except.ok m)
    (hkeys : ∀ kv ∈ updates, truthyOpt (m.lookup kv.1) = false) :
    runM (updateContactCustomFields cfg contactId updates) (r :: rest) =
      (Except.ok Json.null,
       ⟨rest, [mkRestRequest cfg (customFieldsEndpoint cfg) noOptions]⟩) ∧
    (∀ q ∈ [mkRestRequest cfg (customFieldsEndpoint cfg) noOptions], q.method ≠ "PUT") := by
  have hget := getCustomFieldDefinitions_run cfg r rest [] data fields m hkey hresp hcf hbuild
  have hres := resolveCustomFields_eq_nil m updates hkeys
  constructor
  · show updateContactCustomFields cfg contactId updates ⟨r :: rest, []⟩ = _
    simp [updateContactCustomFields, M.bind, hget, hres, M.pure]
  · intro q hq
    simp only [List.mem_singleton] at hq
    subst hq
    simp [mkRestRequest, noOptions]

/-- C4 witness: a single definition contact.foo resolves nothing in an
update map keyed bar, so the call returns null after only the GET. -/
theorem C4_witness :
    runM (updateContactCustomFields cfgW "c1" [("bar", Json.str "1")]) [rFieldsW] =
      (Except.ok Json.null,
       ⟨[], [mkRestRequest cfgW (customFieldsEndpoint cfgW) noOptions]⟩) ∧
    (∀ q ∈ [mkRestRequest cfgW (customFieldsEndpoint cfgW) noOptions], q.method ≠ "PUT") := by
  exact C4_no_resolved_keys cfgW "c1" [("bar", Json.str "1")] rFieldsW []
    (Json.obj [("customFields", Json.arr
      [Json.obj [("id", Json.str "f1"), ("fieldKey", Json.str "contact.foo")]])])
    [Json.obj [("id", Json.str "f1"), ("fieldKey", Json.str "contact.foo")]]
    [("foo", Json.str "f1")]
    (by decide) rfl rfl rfl (by decide)

theorem lookup_optEntry (d : Json) (k k2 : String) :
    (optEntry d k).lookup k2 =
      (if k2 = k then (if truthyOpt (d.getField k) then d.getField k else none)
       else none) := by
  unfold optEntry
  cases hv : d.getField k with
  | none =>
    simp [truthyOpt]
  | some v =>
    by_cases ht : v.truthy
    · by_cases hk : k2 = k
      · subst hk
        simp [ht, List.lookup, truthyOpt, hv]
      · have hb : (k2 == k) = false := beq_false_of_ne hk
        simp [ht, List.lookup, hb, hk]
    · simp only [Bool.not_eq_true] at ht
      simp [ht, truthyOpt, hv]

theorem createPayload_getField (d : Json) (k : String) :
    (createPayload d).getField k =
      (if k = "email" then d.getField "email"
       else if k = "firstName" then
         (if truthyOpt (d.getField "firstName") then d.getField "firstName" else none)
       else if k = "lastName" then
         (if truthyOpt (d.getField "lastName") then d.getField "lastName" else none)
       else if k = "name" then
         (if truthyOpt (d.getField "name") then d.getField "name" else none)
       else if k = "phone" then
         (if truthyOpt (d.getField "phone") then d.getField "phone" else none)
       else none) := by
  have hemail : ((match d.getField "email" with
      | some v => [("email", v)]
      | none => ([] : List (String × Json))).lookup k) =
      (if k = "email" then d.getField "email" else none) := by
    cases hv : d.getField "email" with
    | none =>
      by_cases hk : k = "email" <;> simp [hk]
    | some v =>
      by_cases hk : k = "email"
      · subst hk
        simp [List.lookup]
      · have hb : (k == "email") = false := beq_false_of_ne hk
        simp [List.lookup, hb, hk]
  show ((match d.getField "email" with
      | some v => [("email", v)]
      | none => []) ++
     optEntry d "firstName" ++ optEntry d "lastName" ++
     optEntry d "name" ++ optEntry d "phone").lookup k = _
  rw [lookup_append, lookup_append, lookup_append, lookup_append]
  rw [hemail, lookup_optEntry, lookup_optEntry, lookup_optEntry, lookup_optEntry]
  by_cases h1 : k = "email"
  · subst h1
    cases hv : Json.getField d "email" <;> simp
  · simp only [h1, if_false]
    by_cases h2 : k = "firstName"
    · subst h2
      cases hv : Json.getField d "firstName" with
      | none => simp [truthyOpt, hv]
      | some v =>
        by_cases ht : v.truthy
        · simp [hv, truthyOpt, ht]
        · simp only [Bool.not_eq_true] at ht
          simp [hv, truthyOpt, ht]
    · simp only [h2, if_false]
      by_cases h3 : k = "lastName"
      · subst h3
        cases hv : Json.getField d "lastName" with
        | none => simp [truthyOpt, hv]
        | some v =>
          by_cases ht : v.truthy
          · simp [hv, truthyOpt, ht]
          · simp only [Bool.not_eq_true] at ht
            simp [hv, truthyOpt, ht]
      · simp only [h3, if_false]
        by_cases h4 : k = "name"
        · subst h4
          cases hv : Json.getField d "name" with
          | none => simp [truthyOpt, hv]
          | some v =>
            by_cases ht : v.truthy
            · simp [hv, truthyOpt, ht]
            · simp only [Bool.not_eq_true] at ht
              simp [hv, truthyOpt, ht]
        · simp only [h4, if_false]

/-- C9 counterexample: contact data that provides firstName as the empty
string is a provided (non-undefined) optional field, yet the assembled
create payload omits it, so the payload does not contain exactly the
provided optional fields. -/
theorem C9_counterexample :
    Json.getField contactDataCx "firstName" = some (Json.str "") ∧
    Json.getField (createPayload contactDataCx) "firstName" = none :=
  ⟨rfl, rfl⟩

/-- C9 amended: createContact posts a payload that carries the email field
exactly as provided, carries exactly those of the optional fields firstName,
lastName, name and phone whose provided values are truthy, and carries no
other field; optional fields that are absent or provided with falsy values
(null, empty string) are omitted rather than sent as null. -/
theorem C9_create_payload_truthy_fields (cfg : Config) (d : Json)
    (r : HttpResponse) (rest : List HttpResponse) (d2 : Json)
    (hkey : envTruthy cfg.apiKey = true)
    (hresp : handleRestResponse r = Except.ok d2) :
    (createPayload d).getField "email" = d.getField "email" ∧
    (∀ f, f ∈ (["firstName", "lastName", "name", "phone"] : List String) →
      (createPayload d).getField f =
        (if truthyOpt (d.getField f) then d.getField f else none)) ∧
    (∀ f, f ∉ (["email", "firstName", "lastName", "name", "phone"] : List String) →
      (createPayload d).getField f = none) ∧
    runM (createContact cfg d) (r :: rest) =
      (Except.ok (jsOrVal (d2.getField "contact") d2),
       ⟨rest, [mkRestRequest cfg "/contacts/"
          ⟨some "POST", [], some (createPayload d)⟩]⟩) := by
  refine ⟨?_, ?_, ?_, ?_⟩
  · rw [createPayload_getField]
    simp
  · intro f hf
    rw [createPayload_getField]
    simp only [List.mem_cons, List.mem_singleton] at hf
    rcases hf with hf | hf | hf | hf
    · subst hf; simp
    · subst hf; simp
    · subst hf; simp
    · rcases hf with hf | hf
      · subst hf; simp
      · exact absurd hf (List.not_mem_nil f)
  · intro f hf
    simp only [List.mem_cons, List.mem_singleton, not_or] at hf
    rw [createPayload_getField]
    simp [hf.1, hf.2.1, hf.2.2.1, hf.2.2.2.1, hf.2.2.2.2]
  · have hrun := createContact_run cfg d r rest [] d2 hkey hresp
    show createContact cfg d ⟨r :: rest, []⟩ = _
    rw [hrun]
    simp

/-- C9 witness: a truthy firstName is kept in the payload, and createContact
posts exactly that payload. -/
theorem C9_witness :
    (createPayload dC9W).getField "firstName" = some (Json.str "Ann") ∧
    runM (createContact cfgW dC9W) [rPutW] =
      (Except.ok (Json.obj [("id", Json.str "c1")]),
       ⟨[], [mkRestRequest cfgW "/contacts/"
          ⟨some "POST", [], some (createPayload dC9W)⟩]⟩) := by
  have h := C9_create_payload_truthy_fields cfgW dC9W rPutW []
    (Json.obj [("contact", Json.obj [("id", Json.str "c1")])]) (by decide) rfl
  constructor
  · rw [h.2.1 "firstName" (by decide)]
    rfl
  · exact h.2.2.2

/-- C5: addTagsToContact writes back exactly the deduplicated union of the
existing tags and the given tags (a non-array tag argument normalizing to a
one-element list): the PUT body is the Set union of old and new tags, whose
membership is exactly membership in the old or new tags, which holds no
duplicate, and in which every union element occurs exactly once. -/
theorem C5_addTags_union (cfg : Config) (contactId : String) (tags : Json)
    (r r2 : HttpResponse) (rest : List HttpResponse) (data d2 : Json)
    (existing : List Json)
    (hkey : envTruthy cfg.apiKey = true)
    (hresp : handleRestResponse r = Except.ok data)
    (htags : existingTagsOf (jsOrVal (data.getField "contact") data) = Except.ok existing)
    (hresp2 : handleRestResponse r2 = Except.ok d2) :
    runM (addTagsToContact cfg contactId tags) (r :: r2 :: rest) =
      (Except.ok (jsOrVal (d2.getField "contact") d2),
       ⟨rest, [mkRestRequest cfg ("/contacts/" ++ contactId) noOptions,
               mkRestRequest cfg ("/contacts/" ++ contactId)
                 ⟨some "PUT", [], some (Json.obj [("tags",
                    Json.arr (jsSetDedup (existing ++ normTagsArray tags)))])⟩]⟩) ∧
    (∀ t, t ∈ jsSetDedup (existing ++ normTagsArray tags) ↔
       (t ∈ existing ∨ t ∈ normTagsArray tags)) ∧
    (jsSetDedup (existing ++ normTagsArray tags)).Nodup ∧
    (∀ t, (t ∈ existing ∨ t ∈ normTagsArray tags) →
       (jsSetDedup (existing ++ normTagsArray tags)).count t = 1) := by
  refine ⟨?_, ?_, nodup_jsSetDedup _, ?_⟩
  · have hrun1 := ghlRequest_run cfg ("/contacts/" ++ contactId) noOptions r (r2 :: rest) [] hkey
    have hrun2 := ghlRequest_run cfg ("/contacts/" ++ contactId)
      ⟨some "PUT", [], some (Json.obj [("tags",
         Json.arr (jsSetDedup (existing ++ normTagsArray tags)))])⟩
      r2 rest [mkRestRequest cfg ("/contacts/" ++ contactId) noOptions] hkey
    show addTagsToContact cfg contactId tags ⟨r :: r2 :: rest, []⟩ = _
    simp [addTagsToContact, M.bind, hrun1, hresp, liftE, htags, hrun2, hresp2, M.pure]
  · intro t
    rw [mem_jsSetDedup]
    exact List.mem_append
  · intro t ht
    exact count_jsSetDedup_of_mem _ t (List.mem_append.mpr ht)

/-- C5 witness: adding the string tag x to a contact already tagged a and x
writes back the list holding a and x once each, with x counted once. -/
theorem C5_witness :
    runM (addTagsToContact cfgW "c1" (Json.str "x")) [rContactW, rPutW] =
      (Except.ok (Json.obj [("id", Json.str "c1")]),
       ⟨[], [mkRestRequest cfgW ("/contacts/" ++ "c1") noOptions,
             mkRestRequest cfgW ("/contacts/" ++ "c1")
               ⟨some "PUT", [], some (Json.obj [("tags",
                  Json.arr (jsSetDedup ([Json.str "a", Json.str "x"] ++
                    normTagsArray (Json.str "x"))))])⟩]⟩) ∧
    (jsSetDedup ([Json.str "a", Json.str "x"] ++ normTagsArray (Json.str "x"))).count
      (Json.str "x") = 1 ∧
    jsSetDedup ([Json.str "a", Json.str "x"] ++ normTagsArray (Json.str "x")) =
      [Json.str "a", Json.str "x"] := by
  have h := C5_addTags_union cfgW "c1" (Json.str "x") rContactW rPutW []
    (Json.obj [("contact", Json.obj
      [("id", Json.str "c1"),
       ("tags", Json.arr [Json.str "a", Json.str "x"])])])
    (Json.obj [("contact", Json.obj [("id", Json.str "c1")])])
    [Json.str "a", Json.str "x"]
    (by decide) rfl rfl rfl
  exact ⟨h.1, h.2.2.2 (Json.str "x") (by decide), by decide⟩

/-- C1: with a location id configured, sendEmailTemplate tries the candidate
endpoints in the fixed priority order (services base with the location
header, services base without it, legacy REST base with the location id in
the path), returns the result of the first candidate that succeeds without
attempting any later candidate, moves to the next candidate exactly when a
candidate fails with a 404/not-found or 401/invalid-token-shaped error,
propagates any other failure immediately without further candidates, and
when every candidate fails with a continue-shaped error it fails with the
aggregate error built from the last underlying error, whose message includes
that last error message. -/
theorem C1_sendEmailTemplate_fallback (cfg : Config) (contactId templateId : String)
    (r1 r2 r3 : HttpResponse) (rest : List HttpResponse)
    (hkey : envTruthy cfg.apiKey = true) (hloc : envTruthy cfg.locationId = true) :
    (sendReq1 cfg contactId templateId).base = GHL_SERVICES_BASE ∧
    ("locationId", envStr cfg.locationId) ∈ (sendReq1 cfg contactId templateId).headers ∧
    (sendReq2 cfg contactId templateId).base = GHL_SERVICES_BASE ∧
    (∀ kv ∈ (sendReq2 cfg contactId templateId).headers, kv.1 ≠ "locationId") ∧
    (sendReq3 cfg contactId templateId).base = GHL_API_BASE ∧
    (sendReq3 cfg contactId templateId).endpoint =
      "/locations/" ++ envStr cfg.locationId ++ "/conversations/messages" ∧
    (∀ j1, handleInlineSendResponse r1 = Except.ok j1 →
      runM (sendEmailTemplate cfg contactId templateId) (r1 :: r2 :: r3 :: rest) =
        (Except.ok j1, ⟨r2 :: r3 :: rest, [sendReq1 cfg contactId templateId]⟩)) ∧
    (∀ e1, handleInlineSendResponse r1 = Except.error e1 → isContinueError e1 = false →
      runM (sendEmailTemplate cfg contactId templateId) (r1 :: r2 :: r3 :: rest) =
        (Except.error e1, ⟨r2 :: r3 :: rest, [sendReq1 cfg contactId templateId]⟩)) ∧
    (∀ e1 j2, handleInlineSendResponse r1 = Except.error e1 → isContinueError e1 = true →
      handleServicesResponse r2 = Except.ok j2 →
      runM (sendEmailTemplate cfg contactId templateId) (r1 :: r2 :: r3 :: rest) =
        (Except.ok j2, ⟨r3 :: rest, [sendReq1 cfg contactId templateId,
                                     sendReq2 cfg contactId templateId]⟩)) ∧
    (∀ e1 e2, handleInlineSendResponse r1 = Except.error e1 → isContinueError e1 = true →
      handleServicesResponse r2 = Except.error e2 → isContinueError e2 = false →
      runM (sendEmailTemplate cfg contactId templateId) (r1 :: r2 :: r3 :: rest) =
        (Except.error e2, ⟨r3 :: rest, [sendReq1 cfg contactId templateId,
                                        sendReq2 cfg contactId templateId]⟩)) ∧
    (∀ e1 e2 j3, handleInlineSendResponse r1 = Except.error e1 → isContinueError e1 = true →
      handleServicesResponse r2 = Except.error e2 → isContinueError e2 = true →
      handleRestResponse r3 = Except.ok j3 →
      runM (sendEmailTemplate cfg contactId templateId) (r1 :: r2 :: r3 :: rest) =
        (Except.ok j3, ⟨rest, [sendReq1 cfg contactId templateId,
                               sendReq2 cfg contactId templateId,
                               sendReq3 cfg contactId templateId]⟩)) ∧
    (∀ e1 e2 e3, handleInlineSendResponse r1 = Except.error e1 → isContinueError e1 = true →
      handleServicesResponse r2 = Except.error e2 → isContinueError e2 = true →
      handleRestResponse r3 = Except.error e3 → isContinueError e3 = false →
      runM (sendEmailTemplate cfg contactId templateId) (r1 :: r2 :: r3 :: rest) =
        (Except.error e3, ⟨rest, [sendReq1 cfg contactId templateId,
                                  sendReq2 cfg contactId templateId,
                                  sendReq3 cfg contactId templateId]⟩)) ∧
    (∀ e1 e2 e3, handleInlineSendResponse r1 = Except.error e1 → isContinueError e1 = true →
      handleServicesResponse r2 = Except.error e2 → isContinueError e2 = true →
      handleRestResponse r3 = Except.error e3 → isContinueError e3 = true →
      runM (sendEmailTemplate cfg contactId templateId) (r1 :: r2 :: r3 :: rest) =
        (Except.error (allFailedError (some e3) templateId),
         ⟨rest, [sendReq1 cfg contactId templateId,
                 sendReq2 cfg contactId templateId,
                 sendReq3 cfg contactId templateId]⟩) ∧
      jsIncludes (allFailedError (some e3) templateId).message e3.message = true) := by
  refine ⟨rfl, ?_, rfl, ?_, rfl, rfl, ?_, ?_, ?_, ?_, ?_, ?_, ?_⟩
  · simp [sendReq1, inlineSendRequest]
  · intro kv hkv
    simp only [sendReq2, mkServicesRequest, mergeEntries, List.foldl_nil, defaultHeaders,
      List.mem_cons, List.not_mem_nil, or_false] at hkv
    rcases hkv with h | h | h <;> subst h <;> simp
  · intro j1 h1
    simp [runM, sendEmailTemplate, sendCandidates, hloc, sendLoop, catchM, M.bind,
      fetch, liftE, h1, sendReq1]
  · intro e1 h1 hc1
    simp [runM, sendEmailTemplate, sendCandidates, hloc, sendLoop, catchM, M.bind,
      fetch, liftE, h1, hc1, throwM, sendReq1]
  · intro e1 j2 h1 hc1 h2
    simp [runM, sendEmailTemplate, sendCandidates, hloc, sendLoop, catchM, M.bind,
      fetch, liftE, h1, hc1, ghlServicesRequest, hkey, h2, sendReq1, sendReq2]
  · intro e1 e2 h1 hc1 h2 hc2
    simp [runM, sendEmailTemplate, sendCandidates, hloc, sendLoop, catchM, M.bind,
      fetch, liftE, h1, hc1, ghlServicesRequest, hkey, h2, hc2, throwM, sendReq1, sendReq2]
  · intro e1 e2 j3 h1 hc1 h2 hc2 h3
    simp [runM, sendEmailTemplate, sendCandidates, hloc, sendLoop, catchM, M.bind,
      fetch, liftE, h1, hc1, ghlServicesRequest, ghlRequest, hkey, h2, hc2, h3,
      sendReq1, sendReq2, sendReq3]
  · intro e1 e2 e3 h1 hc1 h2 hc2 h3 hc3
    simp [runM, sendEmailTemplate, sendCandidates, hloc, sendLoop, catchM, M.bind,
      fetch, liftE, h1, hc1, ghlServicesRequest, ghlRequest, hkey, h2, hc2, h3, hc3,
      throwM, sendReq1, sendReq2, sendReq3]
  · intro e1 e2 e3 h1 hc1 h2 hc2 h3 hc3
    constructor
    · simp [runM, sendEmailTemplate, sendCandidates, hloc, sendLoop, catchM, M.bind,
        fetch, liftE, h1, hc1, ghlServicesRequest, ghlRequest, hkey, h2, hc2, h3, hc3,
        throwM, sendReq1, sendReq2, sendReq3]
    · by_cases he : e3.message = ""
      · rw [he]
        simp [jsIncludes]
      · have hb : (e3.message == "") = false := beq_false_of_ne he
        have hmsg : (allFailedError (some e3) templateId).message =
            "All email endpoints failed. Last error: " ++ (e3.message ++
              (". Please verify the template ID (" ++ (templateId ++
               ") and API configuration. If you\x27re getting 401 errors, you may need to use an OAuth token instead of an API key for the services endpoint."))) := by
          simp [allFailedError, hb]
        rw [hmsg]
        exact jsIncludes_middle _ _ _

/-- C1 witness: with all three candidates answering 404, the send fails with
the aggregate error carrying the last 404 error, after exactly the three
candidate requests in priority order. -/
theorem C1_witness :
    runM (sendEmailTemplate cfgW "c1" "t1") [r404W, r404W, r404W] =
      (Except.error (allFailedError (some e404RestW) "t1"),
       ⟨[], [sendReq1 cfgW "c1" "t1", sendReq2 cfgW "c1" "t1",
             sendReq3 cfgW "c1" "t1"]⟩) ∧
    jsIncludes (allFailedError (some e404RestW) "t1").message e404RestW.message = true := by
  have h := C1_sendEmailTemplate_fallback cfgW "c1" "t1" r404W r404W r404W []
    (by decide) (by decide)
  exact h.2.2.2.2.2.2.2.2.2.2.2.2 e404ServicesW e404ServicesW e404RestW
    rfl (by decide) rfl (by decide) rfl (by decide)
